import Mathlib

/-!
Verification model of `src/tools/src/matroska_info.rs` (the `run` function):
a streaming Matroska/EBML scanner built on a bounded buffer, a three-outcome
element grammar, and a two-phase (metadata, then cluster) dispatch loop.

The scanner logic itself is translated from the source.  Two collaborators of
the scanner are not part of the source tree and are modelled at their
interface, as the design document specifies them:

* the bounded buffer (`circular::Buffer`): fixed capacity, a read cursor
  (`pos`), valid bytes written so far (`mem`), with `data`, `fill`, `consume`,
  `shift`, `available_data`, `available_space`;
* the element grammar (`ebml_header`, `segment`, `segment_element`): the
  header/segment decoders are parameters returning an optional consumed
  length, and the segment-element grammar is a parameter returning one of
  Success (consumed length + element), Incomplete, or Failure.

File reads are modelled deterministically: a read into the buffer's writable
space yields `min (available space) (bytes left in the file)` bytes.
Reporter output (`println!`) is modelled as a list of events so that render
ordering can be reasoned about.
-/

deriving instance DecidableEq for Except

namespace MkvInfo

/-- The error enum `InfoError` of the source (I/O and usage errors omitted:
they are not produced by the scan logic modelled here). -/
inductive InfoError where
  | noMoreData
  | parseHeader
  | seekHeadElement
  | infoElement
  | tracksElement
  | unexpectedElement (msg : String)
  | unknownElement (pos : Nat) (id : Nat) (size : Option Nat)
  | parse (msg : String)
deriving DecidableEq

/-- `SegmentElement` as dispatched by the scanner.  Decoded payloads are
opaque to the dispatch logic; they are modelled as a single `Nat`. -/
inductive SegmentElement where
  | seekHead (s : Nat)
  | info (i : Nat)
  | tracks (t : Nat)
  | cluster (c : Nat)
  | void (s : Nat)
  | unknown (id : Nat) (size : Option Nat)
deriving DecidableEq

/-- Stand-in for the `format!("\x7b:?\x7d", el)` debug rendering used in the
metadata phase's catch-all error arm. -/
def elDebug : SegmentElement → String
  | .seekHead _ => "SeekHead"
  | .info _ => "Info"
  | .tracks _ => "Tracks"
  | .cluster _ => "Cluster"
  | .void _ => "EbmlVoid"
  | .unknown _ _ => "Unknown"

/-- One Reporter side effect (a `println!` block for a dispatched element, or
the "buffer is already full, cannot refill" note). -/
inductive Event where
  | renderSeekHead (s : Nat)
  | renderInfo (i : Nat)
  | renderTracks (t : Nat)
  | renderVoid (s : Nat)
  | renderCluster (c : Nat)
  | saturationNote
deriving DecidableEq

/-- Modelled from the spec: the bounded streaming buffer (`circular::Buffer`,
not under `src/`).  `mem` is the list of valid bytes written since creation
(the backing region up to the write cursor), `pos` the read cursor into it. -/
structure Buffer where
  capacity : Nat
  pos : Nat
  mem : List Nat
deriving DecidableEq

/-- `Buffer::data()`: the readable region. -/
def Buffer.data (b : Buffer) : List Nat := b.mem.drop b.pos

/-- `Buffer::available_data()`. -/
def Buffer.availableData (b : Buffer) : Nat := b.mem.length - b.pos

/-- `Buffer::available_space()`. -/
def Buffer.availableSpace (b : Buffer) : Nat := b.capacity - b.mem.length

/-- `Buffer::fill(sz)` after `sz` bytes were written into `space()`. -/
def Buffer.fill (b : Buffer) (c : List Nat) : Buffer :=
  { b with mem := b.mem ++ c }

/-- `Buffer::consume(n)`: advances the read cursor, capped at the write
cursor as in `circular`. -/
def Buffer.consume (b : Buffer) (n : Nat) : Buffer :=
  { b with pos := b.pos + min n b.availableData }

/-- `Buffer::shift()`: compacts the unread bytes to the front. -/
def Buffer.shift (b : Buffer) : Buffer :=
  { b with mem := b.mem.drop b.pos, pos := 0 }

/-- Outcome of `segment_element(bytes)`: `Ok((remaining, element))` is
modelled by the consumed length `n` (the source recovers it via
`b.data().offset(i)`), `Err(Incomplete)` by `incomplete`, and
`Err(Error)/Err(Failure)` by `err`. -/
inductive GOutcome where
  | ok (n : Nat) (el : SegmentElement)
  | incomplete
  | err (msg : String)
deriving DecidableEq

/-- Modelled from the spec: the segment-element grammar
(`matroska::elements::segment_element`, not under `src/`), a pure function of
the readable bytes. -/
def Grammar : Type := List Nat → GOutcome

/-- The three singleton metadata slots (`seek_head`, `info`, `tracks`
locals of `run`). -/
structure Slots where
  seekHead : Option Nat
  info : Option Nat
  tracks : Option Nat
deriving DecidableEq

/-- `seek_head.is_some() && info.is_some() && tracks.is_some()`
(line 100 of the source). -/
def Slots.complete (sl : Slots) : Bool :=
  sl.seekHead.isSome && sl.info.isSome && sl.tracks.isSome

/-- Scanner state: buffer, remaining file bytes, the `_consumed` byte
counter (ScanPosition), and the metadata slots. -/
structure ScanState where
  buf : Buffer
  file : List Nat
  consumed : Nat
  slots : Slots
deriving DecidableEq

/-- The metadata-phase dispatch (source lines 131-257): Reporter events are
emitted first, then the slot-occupancy check runs, exactly as the
`println!` blocks precede the `is_some()` tests in the source.  Returns the
emitted events and either the updated slots or the terminal error. -/
def dispatchMeta (sl : Slots) (el : SegmentElement) :
    List Event × Except InfoError Slots :=
  match el with
  | .seekHead s =>
    ([.renderSeekHead s],
      if sl.seekHead.isSome then .error .seekHeadElement
      else .ok { sl with seekHead := some s })
  | .info i =>
    ([.renderInfo i],
      if sl.info.isSome then .error .infoElement
      else .ok { sl with info := some i })
  | .tracks t =>
    ([.renderTracks t],
      if sl.tracks.isSome then .error .tracksElement
      else .ok { sl with tracks := some t })
  | .void s => ([.renderVoid s], .ok sl)
  | el => ([], .error (.unexpectedElement (elDebug el)))

/-- The cluster-phase dispatch (source lines 294-316).  `pos` is the value
of `_consumed` at dispatch time, used by the `UnknownElement` error. -/
def dispatchCluster (pos : Nat) (el : SegmentElement) :
    List Event × Except InfoError Unit :=
  match el with
  | .seekHead _ => ([], .error (.unexpectedElement "seek head, info or tracks element"))
  | .info _ => ([], .error (.unexpectedElement "seek head, info or tracks element"))
  | .tracks _ => ([], .error (.unexpectedElement "seek head, info or tracks element"))
  | .cluster c => ([.renderCluster c], .ok ())
  | .void s => ([.renderVoid s], .ok ())
  | .unknown id size => ([], .error (.unknownElement pos id size))

/-- The conditional `shift` of source lines 104-105 / 266-267: compact only
when the writable space is exhausted. -/
def maybeShift (b : Buffer) : Buffer :=
  if b.availableSpace = 0 then b.shift else b

/-- The bytes the next `file.read(b.space())` yields in this model:
`min (available space after the conditional shift) (remaining file)`. -/
def refillChunk (st : ScanState) : List Nat :=
  st.file.take (maybeShift st.buf).availableSpace

/-- The state after one conditional shift plus refill (source lines 104-114 /
266-276): the buffer is filled with the read chunk and the file advances. -/
def refilled (st : ScanState) : ScanState :=
  { st with
      buf := (maybeShift st.buf).fill (refillChunk st),
      file := st.file.drop (maybeShift st.buf).availableSpace }

/-- Result of one loop iteration: proceed with a new state, break out of the
loop, or return from `run` with an error.  `fail` carries the state as it
stood at the `return` (in particular the buffer, whose bytes were never
consumed for the failing element) so that frame properties can be stated. -/
inductive StepRes where
  | next (st : ScanState) (evs : List Event)
  | brk (st : ScanState) (evs : List Event)
  | fail (e : InfoError) (st : ScanState) (evs : List Event)
deriving DecidableEq

/-- One iteration of the metadata loop (source lines 99-263): completion
check, saturation check (shift, then break if still full), refill,
end-of-data check (an error in this phase), grammar call, dispatch, and on
non-error dispatch `consume` plus the `_consumed` increment. -/
def metaStep (G : Grammar) (st : ScanState) : StepRes :=
  if st.slots.complete then .brk st []
  else if (maybeShift st.buf).availableSpace = 0 then
    .brk { st with buf := st.buf.shift } [.saturationNote]
  else if (refilled st).buf.availableData = 0 then
    .fail .noMoreData (refilled st) []
  else
    match G (refilled st).buf.data with
    | .incomplete => .next (refilled st) []
    | .err m => .fail (.parse m) (refilled st) []
    | .ok n el =>
      match dispatchMeta st.slots el with
      | (evs, .error e) => .fail e (refilled st) evs
      | (evs, .ok sl') =>
        .next { refilled st with
                  buf := (refilled st).buf.consume n,
                  consumed := st.consumed + n,
                  slots := sl' } evs

/-- One iteration of the cluster loop (source lines 265-322): as `metaStep`
but with no completion check, end-of-data breaking the loop (normal
end-of-stream) instead of erroring, and the cluster dispatch table. -/
def clusterStep (G : Grammar) (st : ScanState) : StepRes :=
  if (maybeShift st.buf).availableSpace = 0 then
    .brk { st with buf := st.buf.shift } [.saturationNote]
  else if (refilled st).buf.availableData = 0 then
    .brk (refilled st) []
  else
    match G (refilled st).buf.data with
    | .incomplete => .next (refilled st) []
    | .err m => .fail (.parse m) (refilled st) []
    | .ok n el =>
      match dispatchCluster st.consumed el with
      | (evs, .error e) => .fail e (refilled st) evs
      | (evs, .ok _) =>
        .next { refilled st with
                  buf := (refilled st).buf.consume n,
                  consumed := st.consumed + n } evs

/-- The readable view the metadata loop hands to `segment_element` in one
iteration, if the iteration reaches the grammar call (`none` when the loop
breaks at completion or saturation, or errors at end-of-data first). -/
def metaGrammarView (st : ScanState) : Option (List Nat) :=
  if st.slots.complete then none
  else if (maybeShift st.buf).availableSpace = 0 then none
  else if (refilled st).buf.availableData = 0 then none
  else some (refilled st).buf.data

/-- The readable view the cluster loop hands to `segment_element` in one
iteration, if the iteration reaches the grammar call. -/
def clusterGrammarView (st : ScanState) : Option (List Nat) :=
  if (maybeShift st.buf).availableSpace = 0 then none
  else if (refilled st).buf.availableData = 0 then none
  else some (refilled st).buf.data

/-- How the metadata loop ended: `broke` falls through to the cluster loop,
`failed` returns from `run`, `fuelOut` is the fuel bound of the model. -/
inductive MetaOut where
  | broke (st : ScanState)
  | failed (e : InfoError) (st : ScanState)
  | fuelOut (st : ScanState)
deriving DecidableEq

/-- How the cluster loop ended: `done` reaches `Ok(())`. -/
inductive ClusterOut where
  | done (st : ScanState)
  | failed (e : InfoError) (st : ScanState)
  | fuelOut (st : ScanState)
deriving DecidableEq

/-- Overall result of `run` after the prologue. -/
inductive RunOut where
  | ok (st : ScanState)
  | err (e : InfoError) (st : ScanState)
  | timeout (st : ScanState)
deriving DecidableEq

/-- The metadata loop, fuelled; accumulates the Reporter events. -/
def metaRun (G : Grammar) : Nat → ScanState → MetaOut × List Event
  | 0, st => (.fuelOut st, [])
  | f + 1, st =>
    match metaStep G st with
    | .next st' evs =>
      let r := metaRun G f st'
      (r.1, evs ++ r.2)
    | .brk st' evs => (.broke st', evs)
    | .fail e st' evs => (.failed e st', evs)

/-- The cluster loop, fuelled; accumulates the Reporter events. -/
def clusterRun (G : Grammar) : Nat → ScanState → ClusterOut × List Event
  | 0, st => (.fuelOut st, [])
  | f + 1, st =>
    match clusterStep G st with
    | .next st' evs =>
      let r := clusterRun G f st'
      (r.1, evs ++ r.2)
    | .brk st' evs => (.done st', evs)
    | .fail e st' evs => (.failed e st', evs)

/-- Both loops of `run` in sequence: the metadata loop's `break` (completion
or saturation) falls through to the cluster loop, exactly as in the source;
a `return Err` ends the scan. -/
def runScan (G : Grammar) (fuel : Nat) (st : ScanState) : RunOut × List Event :=
  match metaRun G fuel st with
  | (.broke st', evs) =>
    match clusterRun G fuel st' with
    | (.done st'', evs') => (.ok st'', evs ++ evs')
    | (.failed e st'', evs') => (.err e st'', evs ++ evs')
    | (.fuelOut st'', evs') => (.timeout st'', evs ++ evs')
  | (.failed e st', evs) => (.err e st', evs)
  | (.fuelOut st', evs) => (.timeout st', evs)

/-- The prologue of `run` (source lines 47-97): one initial read filling the
whole capacity, then the EBML-header decode and the segment-declaration
decode, both from that single read, either failure returning `ParseHeader`.
`H` and `S` model `ebml_header` and `segment` (repository code not under
`src/`), each returning the consumed length on success.  Note that
`_consumed` is initialised to the header's length (line 78) but the segment
declaration's length is consumed from the buffer (line 92) without being
added to `_consumed`. -/
def prologue (H S : List Nat → Option Nat) (file : List Nat) (capacity : Nat) :
    Except InfoError ScanState :=
  let b0 : Buffer := { capacity := capacity, pos := 0, mem := [] }
  let b1 := b0.fill (file.take b0.availableSpace)
  let file1 := file.drop b0.availableSpace
  match H b1.data with
  | none => .error .parseHeader
  | some hlen =>
    let b2 := b1.consume hlen
    match S b2.data with
    | none => .error .parseHeader
    | some slen =>
      .ok { buf := b2.consume slen, file := file1, consumed := hlen,
            slots := { seekHead := none, info := none, tracks := none } }

/-- The metadata loop at the granularity of decoded elements (each iteration
decodes exactly one element; running out of elements is the end-of-data
error of line 119).  The completion check of line 100 runs before each
element, and the dispatch is the one the buffer-level loop uses. -/
def metaList : Slots → List SegmentElement → Except InfoError Slots
  | sl, [] => if sl.complete then .ok sl else .error .noMoreData
  | sl, e :: rest =>
    if sl.complete then .ok sl
    else
      match (dispatchMeta sl e).2 with
      | .error e2 => .error e2
      | .ok sl2 => metaList sl2 rest

/-- Element kinds, for counting occurrences in input sequences. -/
inductive EKind where
  | kS | kI | kT | kC | kV | kU
deriving DecidableEq

/-- The kind of a decoded element. -/
def elKind : SegmentElement → EKind
  | .seekHead _ => .kS
  | .info _ => .kI
  | .tracks _ => .kT
  | .cluster _ => .kC
  | .void _ => .kV
  | .unknown _ _ => .kU

/-- Number of elements of a given kind in a sequence. -/
def cnt (k : EKind) : List SegmentElement → Nat
  | [] => 0
  | e :: es => (if elKind e = k then 1 else 0) + cnt k es

/-- The duplicate-singleton error corresponding to a metadata kind. -/
def dupError : EKind → InfoError
  | .kS => .seekHeadElement
  | .kI => .infoElement
  | .kT => .tracksElement
  | _ => .noMoreData

/-- Whether the element-level metadata loop ended in success with all three
slots resolved. -/
def isCompleteOk : Except InfoError Slots → Bool
  | .ok sl => sl.complete
  | .error _ => false

/-- Whether the metadata loop broke out with all three slots resolved. -/
def brokeComplete : MetaOut × List Event → Bool
  | (.broke st, _) => st.slots.complete
  | _ => false

/-- The Reporter events of one loop iteration, whatever its outcome. -/
def stepEvents : StepRes → List Event
  | .next _ evs => evs
  | .brk _ evs => evs
  | .fail _ _ evs => evs

/-! ## Concrete grammar and state instances used to evaluate the model -/

/-- A grammar that always reports NeedMoreBytes. -/
def incompleteGrammar : Grammar := fun _ => .incomplete

/-- A scanner state mid-stream: 2 of 4 buffered bytes already consumed,
3 file bytes left, no slot resolved. -/
def c1state : ScanState :=
  { buf := { capacity := 6, pos := 2, mem := [1, 2, 3, 4] },
    file := [9, 5, 7], consumed := 0,
    slots := { seekHead := none, info := none, tracks := none } }

/-- An empty scanner state over an exhausted file. -/
def c6state : ScanState :=
  { buf := { capacity := 4, pos := 0, mem := [] }, file := [], consumed := 0,
    slots := { seekHead := none, info := none, tracks := none } }

/-- A grammar that always decodes a 1-byte unknown element with id 236 and
declared size 4. -/
def unknownGrammar : Grammar := fun _ => .ok 1 (.unknown 236 (some 4))

/-- A cluster-phase state at byte offset 42 with one unread file byte. -/
def c7state : ScanState :=
  { buf := { capacity := 4, pos := 0, mem := [] }, file := [9], consumed := 42,
    slots := { seekHead := some 0, info := some 0, tracks := some 0 } }

/-- A grammar that always decodes a 1-byte SeekHead element. -/
def dupSeekGrammar : Grammar := fun _ => .ok 1 (.seekHead 5)

/-- A metadata-phase state whose SeekHead slot is already occupied. -/
def c10state : ScanState :=
  { buf := { capacity := 4, pos := 0, mem := [] }, file := [9], consumed := 7,
    slots := { seekHead := some 3, info := none, tracks := none } }

/-- A grammar that always decodes a 1-byte Info element. -/
def dupInfoGrammar : Grammar := fun _ => .ok 1 (.info 8)

/-- A metadata-phase state whose Info slot is already occupied. -/
def c8state : ScanState :=
  { buf := { capacity := 4, pos := 0, mem := [] }, file := [9], consumed := 0,
    slots := { seekHead := none, info := some 2, tracks := none } }

/-- A header decoder that always fails. -/
def hdrNone : List Nat → Option Nat := fun _ => none

/-- A header decoder that always consumes 2 bytes. -/
def hdrLen2 : List Nat → Option Nat := fun _ => some 2

/-- A segment-declaration decoder that always fails. -/
def segNone : List Nat → Option Nat := fun _ => none

/-- A segment-declaration decoder that always consumes 3 bytes. -/
def segLen3 : List Nat → Option Nat := fun _ => some 3

/-- A ten-byte input file. -/
def c3file : List Nat := [0, 1, 2, 3, 4, 5, 6, 7, 8, 9]

/-- A state whose tiny (2-byte) buffer saturates while no slot is resolved:
the file's first element would need more than the whole capacity. -/
def satState : ScanState :=
  { buf := { capacity := 2, pos := 0, mem := [] }, file := [9, 9, 9],
    consumed := 0,
    slots := { seekHead := none, info := none, tracks := none } }

/-- A zero-capacity state, saturated from the outset. -/
def c4wstate : ScanState :=
  { buf := { capacity := 0, pos := 0, mem := [] }, file := [], consumed := 3,
    slots := { seekHead := none, info := none, tracks := none } }

/-- A grammar that always decodes a 1-byte Cluster element. -/
def clusterOkGrammar : Grammar := fun _ => .ok 1 (.cluster 7)

/-- A state entering the loops with all three metadata slots resolved. -/
def c5state : ScanState :=
  { buf := { capacity := 4, pos := 0, mem := [] }, file := [9], consumed := 0,
    slots := { seekHead := some 0, info := some 0, tracks := some 0 } }

/-- A metadata-phase state (no slot resolved) with one unread file byte. -/
def c5mstate : ScanState :=
  { buf := { capacity := 4, pos := 0, mem := [] }, file := [9], consumed := 0,
    slots := { seekHead := none, info := none, tracks := none } }

/-! ## Helper lemmas about the buffer model and the loop iterations -/

theorem Buffer.data_length (b : Buffer) : b.data.length = b.availableData :=
  List.length_drop b.pos b.mem

theorem Buffer.shift_data (b : Buffer) : b.shift.data = b.data := rfl

theorem Buffer.shift_of_pos_eq_zero {b : Buffer} (h : b.pos = 0) : b.shift = b := by
  cases b with
  | mk c p m => simp_all [Buffer.shift]

theorem Buffer.shift_pos (b : Buffer) : b.shift.pos = 0 := rfl

theorem maybeShift_data (b : Buffer) : (maybeShift b).data = b.data := by
  unfold maybeShift
  split
  · exact Buffer.shift_data b
  · rfl

theorem maybeShift_availableData (b : Buffer) :
    (maybeShift b).availableData = b.availableData := by
  rw [← Buffer.data_length, ← Buffer.data_length, maybeShift_data]

theorem maybeShift_pos_le {b : Buffer} (h : b.pos ≤ b.mem.length) :
    (maybeShift b).pos ≤ (maybeShift b).mem.length := by
  unfold maybeShift
  split
  · simp [Buffer.shift]
  · exact h

theorem Buffer.fill_data {b : Buffer} (c : List Nat) (h : b.pos ≤ b.mem.length) :
    (b.fill c).data = b.data ++ c := by
  simp [Buffer.fill, Buffer.data, List.drop_append_of_le_length h]

theorem Buffer.pos_le_of_availableData_ne_zero {b : Buffer}
    (h : b.availableData ≠ 0) : b.pos ≤ b.mem.length := by
  unfold Buffer.availableData at h
  omega

theorem refilled_buf (st : ScanState) :
    (refilled st).buf = (maybeShift st.buf).fill (refillChunk st) := rfl

theorem refilled_consumed (st : ScanState) : (refilled st).consumed = st.consumed := rfl

theorem refilled_slots (st : ScanState) : (refilled st).slots = st.slots := rfl

theorem refilled_buf_data {st : ScanState} (h : st.buf.pos ≤ st.buf.mem.length) :
    (refilled st).buf.data = st.buf.data ++ refillChunk st := by
  rw [refilled_buf, Buffer.fill_data _ (maybeShift_pos_le h), maybeShift_data]

theorem metaView_some {st : ScanState} {v : List Nat} (h : metaGrammarView st = some v) :
    st.slots.complete = false ∧ (maybeShift st.buf).availableSpace ≠ 0 ∧
    (refilled st).buf.availableData ≠ 0 ∧ (refilled st).buf.data = v := by
  unfold metaGrammarView at h
  by_cases h1 : st.slots.complete
  · simp [h1] at h
  · by_cases h2 : (maybeShift st.buf).availableSpace = 0
    · simp [h1, h2] at h
    · by_cases h3 : (refilled st).buf.availableData = 0
      · simp [h1, h2, h3] at h
      · refine ⟨by simpa using h1, h2, h3, ?_⟩
        simpa [h1, h2, h3] using h

theorem clusterView_some {st : ScanState} {v : List Nat}
    (h : clusterGrammarView st = some v) :
    (maybeShift st.buf).availableSpace ≠ 0 ∧
    (refilled st).buf.availableData ≠ 0 ∧ (refilled st).buf.data = v := by
  unfold clusterGrammarView at h
  by_cases h2 : (maybeShift st.buf).availableSpace = 0
  · simp [h2] at h
  · by_cases h3 : (refilled st).buf.availableData = 0
    · simp [h2, h3] at h
    · refine ⟨h2, h3, ?_⟩
      simpa [h2, h3] using h

theorem metaStep_decode {st : ScanState} {v : List Nat} (G : Grammar)
    (h : metaGrammarView st = some v) :
    metaStep G st =
      match G v with
      | .incomplete => .next (refilled st) []
      | .err m => .fail (.parse m) (refilled st) []
      | .ok n el =>
        match dispatchMeta st.slots el with
        | (evs, .error e) => .fail e (refilled st) evs
        | (evs, .ok sl') =>
          .next { refilled st with
                    buf := (refilled st).buf.consume n,
                    consumed := st.consumed + n,
                    slots := sl' } evs := by
  obtain ⟨h1, h2, h3, h4⟩ := metaView_some h
  unfold metaStep
  rw [h4]
  simp [h1, h2, h3]

theorem clusterStep_decode {st : ScanState} {v : List Nat} (G : Grammar)
    (h : clusterGrammarView st = some v) :
    clusterStep G st =
      match G v with
      | .incomplete => .next (refilled st) []
      | .err m => .fail (.parse m) (refilled st) []
      | .ok n el =>
        match dispatchCluster st.consumed el with
        | (evs, .error e) => .fail e (refilled st) evs
        | (evs, .ok _) =>
          .next { refilled st with
                    buf := (refilled st).buf.consume n,
                    consumed := st.consumed + n } evs := by
  obtain ⟨h2, h3, h4⟩ := clusterView_some h
  unfold clusterStep
  rw [h4]
  simp [h2, h3]

theorem refillChunk_space_ne_zero {st : ScanState} (h : refillChunk st ≠ []) :
    (maybeShift st.buf).availableSpace ≠ 0 := by
  intro h0
  apply h
  unfold refillChunk
  rw [h0]
  rfl

theorem next_data {st : ScanState} (hne : st.buf.availableData ≠ 0) :
    (refilled st).buf.data = st.buf.data ++ refillChunk st :=
  refilled_buf_data (Buffer.pos_le_of_availableData_ne_zero hne)

theorem next_availableData_ne_zero {st : ScanState} (hne : st.buf.availableData ≠ 0) :
    (refilled st).buf.availableData ≠ 0 := by
  rw [← Buffer.data_length, next_data hne]
  rw [← Buffer.data_length] at hne
  simp only [List.length_append]
  omega

theorem metaGrammarView_next {st : ScanState}
    (hcomp : st.slots.complete = false)
    (hspace : (maybeShift st.buf).availableSpace ≠ 0)
    (hne : st.buf.availableData ≠ 0) :
    metaGrammarView st = some (st.buf.data ++ refillChunk st) := by
  unfold metaGrammarView
  simp [hcomp, hspace, next_availableData_ne_zero hne, next_data hne]

theorem clusterGrammarView_next {st : ScanState}
    (hspace : (maybeShift st.buf).availableSpace ≠ 0)
    (hne : st.buf.availableData ≠ 0) :
    clusterGrammarView st = some (st.buf.data ++ refillChunk st) := by
  unfold clusterGrammarView
  simp [hspace, next_availableData_ne_zero hne, next_data hne]

theorem append_chunk_ne_self {v c : List Nat} (h : c ≠ []) : v ++ c ≠ v := by
  intro heq
  have hl := congrArg List.length heq
  simp only [List.length_append] at hl
  exact h (List.eq_nil_of_length_eq_zero (by omega))

/-- Claim C1: when the grammar reports NeedMoreBytes, the iteration consumes
nothing and dispatches nothing (the next state keeps the same readable view,
ScanPosition and slots), and as soon as a refill yields at least one byte the
grammar is invoked again on a view that strictly extends the previous one.
Stated for the metadata loop and, in the final conjunct, for the cluster
loop. -/
theorem c1_retry_protocol (G : Grammar) (st : ScanState) (v : List Nat)
    (h1 : metaGrammarView st = some v) (h2 : G v = .incomplete) :
    metaStep G st = .next (refilled st) [] ∧
    (refilled st).buf.data = v ∧
    (refilled st).consumed = st.consumed ∧
    (refilled st).slots = st.slots ∧
    (refillChunk (refilled st) ≠ [] →
      metaGrammarView (refilled st) = some (v ++ refillChunk (refilled st)) ∧
      v ++ refillChunk (refilled st) ≠ v) ∧
    (∀ st2 v2, clusterGrammarView st2 = some v2 → G v2 = .incomplete →
      clusterStep G st2 = .next (refilled st2) [] ∧
      (refilled st2).buf.data = v2 ∧
      (refilled st2).consumed = st2.consumed ∧
      (refillChunk (refilled st2) ≠ [] →
        clusterGrammarView (refilled st2) = some (v2 ++ refillChunk (refilled st2)) ∧
        v2 ++ refillChunk (refilled st2) ≠ v2)) := by
  obtain ⟨hc, hs, hd, hv⟩ := metaView_some h1
  refine ⟨?_, hv, rfl, rfl, ?_, ?_⟩
  · rw [metaStep_decode G h1, h2]
  · intro hchunk
    have hview := @metaGrammarView_next (refilled st)
      (by rw [refilled_slots]; exact hc) (refillChunk_space_ne_zero hchunk) hd
    rw [hv] at hview
    exact ⟨hview, append_chunk_ne_self hchunk⟩
  · intro st2 v2 g1 g2
    obtain ⟨hs2, hd2, hv2⟩ := clusterView_some g1
    refine ⟨?_, hv2, rfl, ?_⟩
    · rw [clusterStep_decode G g1, g2]
    · intro hchunk
      have hview := @clusterGrammarView_next (refilled st2)
        (refillChunk_space_ne_zero hchunk) hd2
      rw [hv2] at hview
      exact ⟨hview, append_chunk_ne_self hchunk⟩

theorem c1_retry_protocol_witness :
    metaGrammarView c1state = some [3, 4, 9, 5] ∧
    incompleteGrammar [3, 4, 9, 5] = .incomplete ∧
    metaStep incompleteGrammar c1state = .next (refilled c1state) [] ∧
    (refilled c1state).buf.data = [3, 4, 9, 5] ∧
    (refilled c1state).consumed = c1state.consumed ∧
    (refilled c1state).slots = c1state.slots ∧
    refillChunk (refilled c1state) ≠ [] ∧
    metaGrammarView (refilled c1state) =
      some ([3, 4, 9, 5] ++ refillChunk (refilled c1state)) ∧
    [3, 4, 9, 5] ++ refillChunk (refilled c1state) ≠ [3, 4, 9, 5] := by
  have h1 : metaGrammarView c1state = some [3, 4, 9, 5] := by decide
  have h2 : incompleteGrammar [3, 4, 9, 5] = .incomplete := rfl
  have h := c1_retry_protocol incompleteGrammar c1state [3, 4, 9, 5] h1 h2
  have hch : refillChunk (refilled c1state) ≠ [] := by decide
  exact ⟨h1, h2, h.1, h.2.1, h.2.2.1, h.2.2.2.1, hch,
    (h.2.2.2.2.1 hch).1, (h.2.2.2.2.1 hch).2⟩

theorem metaStep_decode_ok {st : ScanState} {v : List Nat} {n : Nat}
    {el : SegmentElement} (G : Grammar)
    (h : metaGrammarView st = some v) (hg : G v = .ok n el) :
    metaStep G st =
      match dispatchMeta st.slots el with
      | (evs, .error e) => .fail e (refilled st) evs
      | (evs, .ok sl') =>
        .next { refilled st with
                  buf := (refilled st).buf.consume n,
                  consumed := st.consumed + n,
                  slots := sl' } evs := by
  rw [metaStep_decode G h, hg]

theorem clusterStep_decode_ok {st : ScanState} {v : List Nat} {n : Nat}
    {el : SegmentElement} (G : Grammar)
    (h : clusterGrammarView st = some v) (hg : G v = .ok n el) :
    clusterStep G st =
      match dispatchCluster st.consumed el with
      | (evs, .error e) => .fail e (refilled st) evs
      | (evs, .ok _) =>
        .next { refilled st with
                  buf := (refilled st).buf.consume n,
                  consumed := st.consumed + n } evs := by
  rw [clusterStep_decode G h, hg]

/-- Claim C6: if the buffer has no readable data after a refill, the
metadata loop fails with NoMoreData — and that outcome occurs exactly when
the three slots are not yet all resolved, since the completion check runs
before the refill — while the cluster loop breaks out normally, ending the
scan successfully. -/
theorem c6_end_of_data (G : Grammar) (st : ScanState)
    (hspace : (maybeShift st.buf).availableSpace ≠ 0)
    (hdata : (refilled st).buf.availableData = 0) :
    ((metaStep G st = .fail .noMoreData (refilled st) []) ↔
      st.slots.complete = false) ∧
    clusterStep G st = .brk (refilled st) [] ∧
    (∀ f, clusterRun G (f + 1) st = (.done (refilled st), [])) := by
  have hcs : clusterStep G st = .brk (refilled st) [] := by
    unfold clusterStep
    simp [hspace, hdata]
  refine ⟨⟨?_, ?_⟩, hcs, ?_⟩
  · intro hfail
    by_cases hc : st.slots.complete
    · unfold metaStep at hfail
      rw [if_pos hc] at hfail
      simp at hfail
    · simpa using hc
  · intro hc
    unfold metaStep
    simp [hc, hspace, hdata]
  · intro f
    simp [clusterRun, hcs]

theorem c6_end_of_data_witness :
    (maybeShift c6state.buf).availableSpace ≠ 0 ∧
    (refilled c6state).buf.availableData = 0 ∧
    c6state.slots.complete = false ∧
    metaStep incompleteGrammar c6state = .fail .noMoreData (refilled c6state) [] ∧
    clusterStep incompleteGrammar c6state = .brk (refilled c6state) [] ∧
    clusterRun incompleteGrammar 1 c6state = (.done (refilled c6state), []) := by
  have hspace : (maybeShift c6state.buf).availableSpace ≠ 0 := by decide
  have hdata : (refilled c6state).buf.availableData = 0 := by decide
  have h := c6_end_of_data incompleteGrammar c6state hspace hdata
  exact ⟨hspace, hdata, by decide, h.1.mpr (by decide), h.2.1, h.2.2 0⟩

/-- Claim C7: in the cluster phase a decoded Unknown element ends the scan
with UnknownElement carrying the current ScanPosition, raw id and declared
size; a decoded SeekHead/Info/Tracks ends it with UnexpectedElement; Cluster
and Void are rendered and scanning continues (with the element consumed). -/
theorem c7_cluster_dispatch (G : Grammar) (st : ScanState) (v : List Nat) (n : Nat)
    (hv : clusterGrammarView st = some v) :
    (∀ id sz, G v = .ok n (.unknown id sz) →
      clusterStep G st = .fail (.unknownElement st.consumed id sz) (refilled st) []) ∧
    (∀ s, G v = .ok n (.seekHead s) →
      clusterStep G st =
        .fail (.unexpectedElement "seek head, info or tracks element") (refilled st) []) ∧
    (∀ i, G v = .ok n (.info i) →
      clusterStep G st =
        .fail (.unexpectedElement "seek head, info or tracks element") (refilled st) []) ∧
    (∀ t, G v = .ok n (.tracks t) →
      clusterStep G st =
        .fail (.unexpectedElement "seek head, info or tracks element") (refilled st) []) ∧
    (∀ c, G v = .ok n (.cluster c) →
      clusterStep G st =
        .next { refilled st with
                  buf := (refilled st).buf.consume n,
                  consumed := st.consumed + n } [.renderCluster c]) ∧
    (∀ s, G v = .ok n (.void s) →
      clusterStep G st =
        .next { refilled st with
                  buf := (refilled st).buf.consume n,
                  consumed := st.consumed + n } [.renderVoid s]) := by
  refine ⟨?_, ?_, ?_, ?_, ?_, ?_⟩ <;> intro a b <;>
    first
      | (intro hg; rw [clusterStep_decode G hv, hg]; rfl)
      | (rw [clusterStep_decode G hv, b]; rfl)

theorem c7_cluster_dispatch_witness :
    clusterGrammarView c7state = some [9] ∧
    unknownGrammar [9] = .ok 1 (.unknown 236 (some 4)) ∧
    clusterStep unknownGrammar c7state =
      .fail (.unknownElement 42 236 (some 4)) (refilled c7state) [] := by
  have hv : clusterGrammarView c7state = some [9] := by decide
  have hg : unknownGrammar [9] = .ok 1 (.unknown 236 (some 4)) := rfl
  exact ⟨hv, hg,
    (c7_cluster_dispatch unknownGrammar c7state [9] 1 hv).1 236 (some 4) hg⟩

/-- Claim C10: when the dispatch of a successfully decoded element errors
(duplicate singleton, unexpected element, unknown element), the scan returns
with the element's bytes still unconsumed in the buffer and ScanPosition
unchanged; consume and the ScanPosition increment happen only on a dispatch
that does not error.  Stated for both loops. -/
theorem c10_error_frame (G : Grammar) :
    (∀ st v n el, metaGrammarView st = some v → G v = .ok n el →
      (∀ e evs2, dispatchMeta st.slots el = (evs2, .error e) →
        metaStep G st = .fail e (refilled st) evs2 ∧
        (refilled st).buf.data = v ∧ (refilled st).consumed = st.consumed ∧
        (refilled st).slots = st.slots) ∧
      (∀ sl' evs2, dispatchMeta st.slots el = (evs2, .ok sl') →
        metaStep G st =
          .next { refilled st with
                    buf := (refilled st).buf.consume n,
                    consumed := st.consumed + n,
                    slots := sl' } evs2)) ∧
    (∀ st v n el, clusterGrammarView st = some v → G v = .ok n el →
      (∀ e evs2, dispatchCluster st.consumed el = (evs2, .error e) →
        clusterStep G st = .fail e (refilled st) evs2 ∧
        (refilled st).buf.data = v ∧ (refilled st).consumed = st.consumed) ∧
      (∀ u evs2, dispatchCluster st.consumed el = (evs2, .ok u) →
        clusterStep G st =
          .next { refilled st with
                    buf := (refilled st).buf.consume n,
                    consumed := st.consumed + n } evs2)) := by
  constructor
  · intro st v n el hv hg
    obtain ⟨hc, hs, hd, hval⟩ := metaView_some hv
    constructor
    · intro e evs2 hdisp
      rw [metaStep_decode_ok G hv hg, hdisp]
      exact ⟨rfl, hval, rfl, rfl⟩
    · intro sl' evs2 hdisp
      rw [metaStep_decode_ok G hv hg, hdisp]
  · intro st v n el hv hg
    obtain ⟨hs, hd, hval⟩ := clusterView_some hv
    constructor
    · intro e evs2 hdisp
      rw [clusterStep_decode_ok G hv hg, hdisp]
      exact ⟨rfl, hval, rfl⟩
    · intro u evs2 hdisp
      rw [clusterStep_decode_ok G hv hg, hdisp]

theorem c10_error_frame_witness :
    metaGrammarView c10state = some [9] ∧
    dupSeekGrammar [9] = .ok 1 (.seekHead 5) ∧
    dispatchMeta c10state.slots (.seekHead 5) =
      ([.renderSeekHead 5], .error .seekHeadElement) ∧
    metaStep dupSeekGrammar c10state =
      .fail .seekHeadElement (refilled c10state) [.renderSeekHead 5] ∧
    (refilled c10state).buf.data = [9] ∧
    (refilled c10state).consumed = c10state.consumed ∧
    (refilled c10state).slots = c10state.slots := by
  have hv : metaGrammarView c10state = some [9] := by decide
  have hg : dupSeekGrammar [9] = .ok 1 (.seekHead 5) := rfl
  have hdisp : dispatchMeta c10state.slots (.seekHead 5) =
      ([.renderSeekHead 5], .error .seekHeadElement) := by decide
  have h := ((c10_error_frame dupSeekGrammar).1 c10state [9] 1 (.seekHead 5) hv hg).1
    .seekHeadElement [.renderSeekHead 5] hdisp
  exact ⟨hv, hg, hdisp, h.1, h.2.1, h.2.2.1, h.2.2.2⟩

/-- Claim C8 counterexample: dispatching a duplicate SeekHead in the
metadata phase emits the element's full Reporter rendering (its `println!`
block runs before the `seek_head.is_some()` occupancy check, source lines
133-164) and only then fails, so the claim that the slot-occupancy check is
decided before any render call — and that the duplicate is not forwarded to
the Reporter — is false. -/
theorem c8_counterexample :
    dispatchMeta { seekHead := some 0, info := none, tracks := none } (.seekHead 1) =
      ([.renderSeekHead 1], .error .seekHeadElement) ∧
    (dispatchMeta { seekHead := some 0, info := none, tracks := none }
      (.seekHead 1)).1 ≠ [] := by
  exact ⟨rfl, by decide⟩

/-- Claim C8 amended: a duplicate SeekHead/Info/Tracks in the metadata phase
terminates the scan with the corresponding duplicate error and leaves the
previously stored slot value unchanged, but the duplicate element IS
forwarded to the Reporter: its render is emitted before the slot-occupancy
check is decided. -/
theorem c8_duplicate_renders_then_fails (G : Grammar) (st : ScanState)
    (v : List Nat) (n : Nat) (hv : metaGrammarView st = some v) :
    (∀ s x, st.slots.seekHead = some x → G v = .ok n (.seekHead s) →
      metaStep G st = .fail .seekHeadElement (refilled st) [.renderSeekHead s] ∧
      (refilled st).slots.seekHead = some x) ∧
    (∀ i x, st.slots.info = some x → G v = .ok n (.info i) →
      metaStep G st = .fail .infoElement (refilled st) [.renderInfo i] ∧
      (refilled st).slots.info = some x) ∧
    (∀ t x, st.slots.tracks = some x → G v = .ok n (.tracks t) →
      metaStep G st = .fail .tracksElement (refilled st) [.renderTracks t] ∧
      (refilled st).slots.tracks = some x) := by
  refine ⟨?_, ?_, ?_⟩
  · intro s x hslot hg
    have hdisp : dispatchMeta st.slots (.seekHead s) =
        ([.renderSeekHead s], .error .seekHeadElement) := by
      simp [dispatchMeta, hslot]
    rw [metaStep_decode_ok G hv hg, hdisp]
    exact ⟨rfl, by rw [refilled_slots]; exact hslot⟩
  · intro i x hslot hg
    have hdisp : dispatchMeta st.slots (.info i) =
        ([.renderInfo i], .error .infoElement) := by
      simp [dispatchMeta, hslot]
    rw [metaStep_decode_ok G hv hg, hdisp]
    exact ⟨rfl, by rw [refilled_slots]; exact hslot⟩
  · intro t x hslot hg
    have hdisp : dispatchMeta st.slots (.tracks t) =
        ([.renderTracks t], .error .tracksElement) := by
      simp [dispatchMeta, hslot]
    rw [metaStep_decode_ok G hv hg, hdisp]
    exact ⟨rfl, by rw [refilled_slots]; exact hslot⟩

theorem c8_duplicate_renders_then_fails_witness :
    metaGrammarView c8state = some [9] ∧
    c8state.slots.info = some 2 ∧
    dupInfoGrammar [9] = .ok 1 (.info 8) ∧
    metaStep dupInfoGrammar c8state =
      .fail .infoElement (refilled c8state) [.renderInfo 8] ∧
    (refilled c8state).slots.info = some 2 := by
  have hv : metaGrammarView c8state = some [9] := by decide
  have hslot : c8state.slots.info = some 2 := rfl
  have hg : dupInfoGrammar [9] = .ok 1 (.info 8) := rfl
  have h := (c8_duplicate_renders_then_fails dupInfoGrammar c8state [9] 1 hv).2.1
    8 2 hslot hg
  exact ⟨hv, hslot, hg, h.1, h.2⟩

/-- Claim C9: the EBML header and the segment declaration are both decoded
from the bytes of the single initial read (the header from `file.take
capacity`, the segment declaration from the same bytes minus the header's
consumed length — no refill or retry in between), and a failure of either
decode (including one caused by insufficient bytes, since the source treats
`Err(Incomplete)` like any other failure here) returns ParseHeader. -/
theorem c9_prologue_single_read (H S : List Nat → Option Nat)
    (file : List Nat) (capacity : Nat) :
    (H (file.take capacity) = none →
      prologue H S file capacity = .error .parseHeader) ∧
    (∀ h, H (file.take capacity) = some h → h ≤ (file.take capacity).length →
      S ((file.take capacity).drop h) = none →
      prologue H S file capacity = .error .parseHeader) := by
  constructor
  · intro hH
    simp only [prologue, Buffer.fill, Buffer.data, Buffer.availableSpace,
      List.nil_append, List.drop_zero, List.length_nil, Nat.sub_zero, hH]
  · intro h hH hle hS
    simp only [prologue, Buffer.fill, Buffer.data, Buffer.consume,
      Buffer.availableData, Buffer.availableSpace, List.nil_append,
      List.drop_zero, List.length_nil, Nat.sub_zero, Nat.zero_add, hH,
      Nat.min_eq_left hle, hS]

theorem c9_prologue_single_read_witness :
    (hdrNone (c3file.take 8) = none ∧
      prologue hdrNone segNone c3file 8 = .error .parseHeader) ∧
    (hdrLen2 (c3file.take 8) = some 2 ∧ 2 ≤ (c3file.take 8).length ∧
      segNone ((c3file.take 8).drop 2) = none ∧
      prologue hdrLen2 segNone c3file 8 = .error .parseHeader) := by
  refine ⟨⟨rfl, ?_⟩, rfl, by decide, rfl, ?_⟩
  · exact (c9_prologue_single_read hdrNone segNone c3file 8).1 rfl
  · exact (c9_prologue_single_read hdrLen2 segNone c3file 8).2 2 rfl (by decide) rfl

/-- Claim C3, code bug: after the prologue on a 10-byte file with a header
decode consuming 2 bytes and a segment-declaration decode consuming 3, the
buffer's read cursor is at 5 — five bytes consumed from the start of the
file — but `_consumed` (ScanPosition) is 2: the source initialises
`_consumed` to the header length (line 78) and calls `b.consume(length)` for
the segment declaration (line 92) without the matching `_consumed +=
length`, so ScanPosition permanently lags the true consumed-byte count by
the segment declaration's length, contradicting the claimed invariant. -/
theorem c3_scanposition_omits_segment :
    prologue hdrLen2 segLen3 c3file 16 =
      .ok { buf := { capacity := 16, pos := 5, mem := c3file },
            file := [], consumed := 2,
            slots := { seekHead := none, info := none, tracks := none } } ∧
    (2 : Nat) ≠ 5 := by
  exact ⟨by decide, by decide⟩

theorem maybeShift_space_zero {b : Buffer} (h : (maybeShift b).availableSpace = 0) :
    b.availableSpace = 0 ∧ b.shift.availableSpace = 0 := by
  unfold maybeShift at h
  split at h
  · exact ⟨by assumption, h⟩
  · exact absurd h (by assumption)

/-- Claim C4 counterexample: with a 2-byte buffer, a 3-byte file and a
grammar that keeps needing more bytes, the metadata loop saturates with all
three slots still empty, breaks into the cluster loop, which immediately
saturates too, and `run` returns success — so "success only if the metadata
phase had already completed" is false on the code: the metadata-phase
saturation break falls through to the cluster loop and ends in `Ok`. -/
theorem c4_counterexample :
    runScan incompleteGrammar 5 satState =
      (.ok { buf := { capacity := 2, pos := 0, mem := [9, 9] }, file := [9],
             consumed := 0,
             slots := { seekHead := none, info := none, tracks := none } },
       [.saturationNote, .saturationNote]) ∧
    ({ seekHead := none, info := none, tracks := none } : Slots).complete = false := by
  exact ⟨by decide, by decide⟩

/-- Claim C4 amended: buffer saturation (available space still 0 after the
compacting shift) stops the current phase with only the logged note and no
error value; when it happens during the metadata phase the cluster loop then
immediately saturates as well and the whole scan returns success (`Ok`) with
the slots exactly as they were — regardless of whether the metadata phase
had completed. -/
theorem c4_saturation_soft_stop (G : Grammar) (f : Nat) (st : ScanState)
    (hcomp : st.slots.complete = false)
    (hsat : (maybeShift st.buf).availableSpace = 0) :
    metaStep G st = .brk { st with buf := st.buf.shift } [.saturationNote] ∧
    runScan G (f + 1) st =
      (.ok { st with buf := st.buf.shift }, [.saturationNote, .saturationNote]) ∧
    ({ st with buf := st.buf.shift } : ScanState).slots = st.slots := by
  have hz := maybeShift_space_zero hsat
  have hmeta : metaStep G st = .brk { st with buf := st.buf.shift } [.saturationNote] := by
    unfold metaStep
    simp [hcomp, hsat]
  have hshift2 : st.buf.shift.shift = st.buf.shift :=
    Buffer.shift_of_pos_eq_zero rfl
  have hms : maybeShift st.buf.shift = st.buf.shift := by
    unfold maybeShift
    rw [if_pos hz.2, hshift2]
  have hcl : clusterStep G { st with buf := st.buf.shift } =
      .brk { st with buf := st.buf.shift } [.saturationNote] := by
    unfold clusterStep
    rw [if_pos (by rw [hms]; exact hz.2), hshift2]
  have h1 : metaRun G (f + 1) st =
      (.broke { st with buf := st.buf.shift }, [.saturationNote]) := by
    simp [metaRun, hmeta]
  have h2 : clusterRun G (f + 1) { st with buf := st.buf.shift } =
      (.done { st with buf := st.buf.shift }, [.saturationNote]) := by
    simp [clusterRun, hcl]
  exact ⟨hmeta, by simp [runScan, h1, h2], rfl⟩

theorem c4_saturation_soft_stop_witness :
    c4wstate.slots.complete = false ∧
    (maybeShift c4wstate.buf).availableSpace = 0 ∧
    metaStep incompleteGrammar c4wstate =
      .brk { c4wstate with buf := c4wstate.buf.shift } [.saturationNote] ∧
    runScan incompleteGrammar 1 c4wstate =
      (.ok { c4wstate with buf := c4wstate.buf.shift },
       [.saturationNote, .saturationNote]) ∧
    ({ c4wstate with buf := c4wstate.buf.shift } : ScanState).slots =
      c4wstate.slots := by
  have hcomp : c4wstate.slots.complete = false := by decide
  have hsat : (maybeShift c4wstate.buf).availableSpace = 0 := by decide
  have h := c4_saturation_soft_stop incompleteGrammar 0 c4wstate hcomp hsat
  exact ⟨hcomp, hsat, h.1, h.2.1, h.2.2⟩

theorem Slots.complete_eq_true {sl : Slots} :
    sl.complete = true ↔
      (sl.seekHead.isSome = true ∧ sl.info.isSome = true ∧
        sl.tracks.isSome = true) := by
  simp [Slots.complete, Bool.and_eq_true, and_assoc]

theorem Slots.complete_eq_false {sl : Slots} :
    sl.complete = false ↔
      ¬ (sl.seekHead.isSome = true ∧ sl.info.isSome = true ∧
          sl.tracks.isSome = true) := by
  rw [← Slots.complete_eq_true]
  cases h : sl.complete <;> simp

theorem metaList_completes (es : List SegmentElement) :
    ∀ sl : Slots,
    (∀ e ∈ es, elKind e = .kS ∨ elKind e = .kI ∨ elKind e = .kT ∨ elKind e = .kV) →
    cnt .kS es = (if sl.seekHead.isSome then 0 else 1) →
    cnt .kI es = (if sl.info.isSome then 0 else 1) →
    cnt .kT es = (if sl.tracks.isSome then 0 else 1) →
    isCompleteOk (metaList sl es) = true := by
  induction es with
  | nil =>
    intro sl hmem hS hI hT
    have h1 : sl.seekHead.isSome = true := by
      by_cases h : sl.seekHead.isSome = true
      · exact h
      · rw [if_neg h] at hS
        simp [cnt] at hS
    have h2 : sl.info.isSome = true := by
      by_cases h : sl.info.isSome = true
      · exact h
      · rw [if_neg h] at hI
        simp [cnt] at hI
    have h3 : sl.tracks.isSome = true := by
      by_cases h : sl.tracks.isSome = true
      · exact h
      · rw [if_neg h] at hT
        simp [cnt] at hT
    have hcomp : sl.complete = true := by
      simp [Slots.complete, h1, h2, h3]
    simp [metaList, hcomp, isCompleteOk]
  | cons e rest ih =>
    intro sl hmem hS hI hT
    by_cases hc : sl.complete = true
    · simp [metaList, hc, isCompleteOk]
    · have hcF : sl.complete = false := by simpa using hc
      cases e with
      | seekHead s =>
        have hnone : sl.seekHead = none := by
          cases hsk : sl.seekHead with
          | none => rfl
          | some x =>
            rw [hsk] at hS
            simp [cnt, elKind] at hS
        have hstep : metaList sl (.seekHead s :: rest) =
            metaList { sl with seekHead := some s } rest := by
          simp [metaList, hcF, dispatchMeta, hnone]
        rw [hstep]
        have hS2 : cnt .kS rest = 0 := by
          simp [cnt, elKind, hnone] at hS
          omega
        apply ih
        · intro e2 he2
          exact hmem e2 (List.mem_cons_of_mem _ he2)
        · simp [hS2]
        · simpa [cnt, elKind] using hI
        · simpa [cnt, elKind] using hT
      | info i =>
        have hnone : sl.info = none := by
          cases hsk : sl.info with
          | none => rfl
          | some x =>
            rw [hsk] at hI
            simp [cnt, elKind] at hI
        have hstep : metaList sl (.info i :: rest) =
            metaList { sl with info := some i } rest := by
          simp [metaList, hcF, dispatchMeta, hnone]
        rw [hstep]
        have hI2 : cnt .kI rest = 0 := by
          simp [cnt, elKind, hnone] at hI
          omega
        apply ih
        · intro e2 he2
          exact hmem e2 (List.mem_cons_of_mem _ he2)
        · simpa [cnt, elKind] using hS
        · simp [hI2]
        · simpa [cnt, elKind] using hT
      | tracks t =>
        have hnone : sl.tracks = none := by
          cases hsk : sl.tracks with
          | none => rfl
          | some x =>
            rw [hsk] at hT
            simp [cnt, elKind] at hT
        have hstep : metaList sl (.tracks t :: rest) =
            metaList { sl with tracks := some t } rest := by
          simp [metaList, hcF, dispatchMeta, hnone]
        rw [hstep]
        have hT2 : cnt .kT rest = 0 := by
          simp [cnt, elKind, hnone] at hT
          omega
        apply ih
        · intro e2 he2
          exact hmem e2 (List.mem_cons_of_mem _ he2)
        · simpa [cnt, elKind] using hS
        · simpa [cnt, elKind] using hI
        · simp [hT2]
      | void s =>
        have hstep : metaList sl (.void s :: rest) = metaList sl rest := by
          simp [metaList, hcF, dispatchMeta]
        rw [hstep]
        apply ih
        · intro e2 he2
          exact hmem e2 (List.mem_cons_of_mem _ he2)
        · simpa [cnt, elKind] using hS
        · simpa [cnt, elKind] using hI
        · simpa [cnt, elKind] using hT
      | cluster c =>
        have := hmem (.cluster c) (List.mem_cons_self _ _)
        simp [elKind] at this
      | unknown id sz =>
        have := hmem (.unknown id sz) (List.mem_cons_self _ _)
        simp [elKind] at this

theorem metaList_through (p : List SegmentElement) :
    ∀ (sl : Slots) (q : List SegmentElement),
    (∀ e ∈ p, elKind e = .kS ∨ elKind e = .kI ∨ elKind e = .kT ∨ elKind e = .kV) →
    (sl.seekHead.isSome = true → cnt .kS p = 0) →
    (sl.info.isSome = true → cnt .kI p = 0) →
    (sl.tracks.isSome = true → cnt .kT p = 0) →
    cnt .kS p ≤ 1 → cnt .kI p ≤ 1 → cnt .kT p ≤ 1 →
    ¬ ((sl.seekHead.isSome = true ∨ cnt .kS p = 1) ∧
       (sl.info.isSome = true ∨ cnt .kI p = 1) ∧
       (sl.tracks.isSome = true ∨ cnt .kT p = 1)) →
    ∃ sl' : Slots,
      metaList sl (p ++ q) = metaList sl' q ∧
      (sl'.seekHead.isSome = true ↔ (sl.seekHead.isSome = true ∨ cnt .kS p = 1)) ∧
      (sl'.info.isSome = true ↔ (sl.info.isSome = true ∨ cnt .kI p = 1)) ∧
      (sl'.tracks.isSome = true ↔ (sl.tracks.isSome = true ∨ cnt .kT p = 1)) ∧
      sl'.complete = false := by
  induction p with
  | nil =>
    intro sl q hmem hS0 hI0 hT0 hS1 hI1 hT1 hnc
    refine ⟨sl, rfl, by simp [cnt], by simp [cnt], by simp [cnt], ?_⟩
    rw [Slots.complete_eq_false]
    rintro ⟨a, b, c⟩
    exact hnc ⟨Or.inl a, Or.inl b, Or.inl c⟩
  | cons e p2 ih =>
    intro sl q hmem hS0 hI0 hT0 hS1 hI1 hT1 hnc
    have hcF : sl.complete = false := by
      rw [Slots.complete_eq_false]
      rintro ⟨a, b, c⟩
      exact hnc ⟨Or.inl a, Or.inl b, Or.inl c⟩
    cases e with
    | seekHead s =>
      have hcount : cnt .kS (SegmentElement.seekHead s :: p2) = 1 + cnt .kS p2 := by
        simp [cnt, elKind]
      have hnone : sl.seekHead = none := by
        cases hsk : sl.seekHead with
        | none => rfl
        | some x =>
          have h0 := hS0 (by simp [hsk])
          rw [hcount] at h0
          omega
      have hS2 : cnt .kS p2 = 0 := by
        rw [hcount] at hS1
        omega
      have hstep : metaList sl ((SegmentElement.seekHead s :: p2) ++ q) =
          metaList { sl with seekHead := some s } (p2 ++ q) := by
        simp [metaList, hcF, dispatchMeta, hnone]
      obtain ⟨sl', heq, i1, i2, i3, hc5⟩ :=
        ih { sl with seekHead := some s } q
          (fun e2 he2 => hmem e2 (List.mem_cons_of_mem _ he2))
          (fun _ => hS2)
          (fun h => by simpa [cnt, elKind] using hI0 h)
          (fun h => by simpa [cnt, elKind] using hT0 h)
          (by omega)
          (by simpa [cnt, elKind] using hI1)
          (by simpa [cnt, elKind] using hT1)
          (by
            rintro ⟨a, b, c⟩
            apply hnc
            refine ⟨Or.inr (by rw [hcount, hS2]), ?_, ?_⟩
            · rcases b with hb | hb
              · exact Or.inl hb
              · exact Or.inr (by simpa [cnt, elKind] using hb)
            · rcases c with hc2 | hc2
              · exact Or.inl hc2
              · exact Or.inr (by simpa [cnt, elKind] using hc2))
      refine ⟨sl', by rw [hstep]; exact heq, ?_, ?_, ?_, hc5⟩
      · rw [i1]
        simp [cnt, elKind, hnone, hS2]
      · rw [i2]
        simp [cnt, elKind]
      · rw [i3]
        simp [cnt, elKind]
    | info i =>
      have hcount : cnt .kI (SegmentElement.info i :: p2) = 1 + cnt .kI p2 := by
        simp [cnt, elKind]
      have hnone : sl.info = none := by
        cases hsk : sl.info with
        | none => rfl
        | some x =>
          have h0 := hI0 (by simp [hsk])
          rw [hcount] at h0
          omega
      have hI2 : cnt .kI p2 = 0 := by
        rw [hcount] at hI1
        omega
      have hstep : metaList sl ((SegmentElement.info i :: p2) ++ q) =
          metaList { sl with info := some i } (p2 ++ q) := by
        simp [metaList, hcF, dispatchMeta, hnone]
      obtain ⟨sl', heq, i1, i2, i3, hc5⟩ :=
        ih { sl with info := some i } q
          (fun e2 he2 => hmem e2 (List.mem_cons_of_mem _ he2))
          (fun h => by simpa [cnt, elKind] using hS0 h)
          (fun _ => hI2)
          (fun h => by simpa [cnt, elKind] using hT0 h)
          (by simpa [cnt, elKind] using hS1)
          (by omega)
          (by simpa [cnt, elKind] using hT1)
          (by
            rintro ⟨a, b, c⟩
            apply hnc
            refine ⟨?_, Or.inr (by rw [hcount, hI2]), ?_⟩
            · rcases a with ha | ha
              · exact Or.inl ha
              · exact Or.inr (by simpa [cnt, elKind] using ha)
            · rcases c with hc2 | hc2
              · exact Or.inl hc2
              · exact Or.inr (by simpa [cnt, elKind] using hc2))
      refine ⟨sl', by rw [hstep]; exact heq, ?_, ?_, ?_, hc5⟩
      · rw [i1]
        simp [cnt, elKind]
      · rw [i2]
        simp [cnt, elKind, hnone, hI2]
      · rw [i3]
        simp [cnt, elKind]
    | tracks t =>
      have hcount : cnt .kT (SegmentElement.tracks t :: p2) = 1 + cnt .kT p2 := by
        simp [cnt, elKind]
      have hnone : sl.tracks = none := by
        cases hsk : sl.tracks with
        | none => rfl
        | some x =>
          have h0 := hT0 (by simp [hsk])
          rw [hcount] at h0
          omega
      have hT2 : cnt .kT p2 = 0 := by
        rw [hcount] at hT1
        omega
      have hstep : metaList sl ((SegmentElement.tracks t :: p2) ++ q) =
          metaList { sl with tracks := some t } (p2 ++ q) := by
        simp [metaList, hcF, dispatchMeta, hnone]
      obtain ⟨sl', heq, i1, i2, i3, hc5⟩ :=
        ih { sl with tracks := some t } q
          (fun e2 he2 => hmem e2 (List.mem_cons_of_mem _ he2))
          (fun h => by simpa [cnt, elKind] using hS0 h)
          (fun h => by simpa [cnt, elKind] using hI0 h)
          (fun _ => hT2)
          (by simpa [cnt, elKind] using hS1)
          (by simpa [cnt, elKind] using hI1)
          (by omega)
          (by
            rintro ⟨a, b, c⟩
            apply hnc
            refine ⟨?_, ?_, Or.inr (by rw [hcount, hT2])⟩
            · rcases a with ha | ha
              · exact Or.inl ha
              · exact Or.inr (by simpa [cnt, elKind] using ha)
            · rcases b with hb | hb
              · exact Or.inl hb
              · exact Or.inr (by simpa [cnt, elKind] using hb))
      refine ⟨sl', by rw [hstep]; exact heq, ?_, ?_, ?_, hc5⟩
      · rw [i1]
        simp [cnt, elKind]
      · rw [i2]
        simp [cnt, elKind]
      · rw [i3]
        simp [cnt, elKind, hnone, hT2]
    | void s =>
      have hstep : metaList sl ((SegmentElement.void s :: p2) ++ q) =
          metaList sl (p2 ++ q) := by
        simp [metaList, hcF, dispatchMeta]
      obtain ⟨sl', heq, i1, i2, i3, hc5⟩ :=
        ih sl q
          (fun e2 he2 => hmem e2 (List.mem_cons_of_mem _ he2))
          (fun h => by simpa [cnt, elKind] using hS0 h)
          (fun h => by simpa [cnt, elKind] using hI0 h)
          (fun h => by simpa [cnt, elKind] using hT0 h)
          (by simpa [cnt, elKind] using hS1)
          (by simpa [cnt, elKind] using hI1)
          (by simpa [cnt, elKind] using hT1)
          (by
            rintro ⟨a, b, c⟩
            apply hnc
            refine ⟨?_, ?_, ?_⟩
            · rcases a with ha | ha
              · exact Or.inl ha
              · exact Or.inr (by simpa [cnt, elKind] using ha)
            · rcases b with hb | hb
              · exact Or.inl hb
              · exact Or.inr (by simpa [cnt, elKind] using hb)
            · rcases c with hc2 | hc2
              · exact Or.inl hc2
              · exact Or.inr (by simpa [cnt, elKind] using hc2))
      refine ⟨sl', by rw [hstep]; exact heq, ?_, ?_, ?_, hc5⟩
      · rw [i1]
        simp [cnt, elKind]
      · rw [i2]
        simp [cnt, elKind]
      · rw [i3]
        simp [cnt, elKind]
    | cluster c =>
      have := hmem (.cluster c) (List.mem_cons_self _ _)
      simp [elKind] at this
    | unknown id sz =>
      have := hmem (.unknown id sz) (List.mem_cons_self _ _)
      simp [elKind] at this

/-- Claim C2: over the element-level metadata loop, any sequence in which
SeekHead, Info and Tracks each occur exactly once among arbitrarily many
Void elements completes the metadata phase with all three slots set; and any
sequence of the form `p ++ d :: r` where `d` is a second occurrence of a
singleton kind already seen once in `p`, with no other duplicate and at
least one of the three kinds still missing from `p` (so the phase has not
completed before `d`), terminates with the duplicate error corresponding to
`d`'s kind. -/
theorem c2_singleton_enforcement :
    (∀ es : List SegmentElement,
      (∀ e ∈ es, elKind e = .kS ∨ elKind e = .kI ∨ elKind e = .kT ∨ elKind e = .kV) →
      cnt .kS es = 1 → cnt .kI es = 1 → cnt .kT es = 1 →
      isCompleteOk
        (metaList { seekHead := none, info := none, tracks := none } es) = true) ∧
    (∀ (p r : List SegmentElement) (d : SegmentElement),
      (elKind d = .kS ∨ elKind d = .kI ∨ elKind d = .kT) →
      (∀ e ∈ p, elKind e = .kS ∨ elKind e = .kI ∨ elKind e = .kT ∨ elKind e = .kV) →
      cnt (elKind d) p = 1 →
      cnt .kS p ≤ 1 → cnt .kI p ≤ 1 → cnt .kT p ≤ 1 →
      ¬ (cnt .kS p = 1 ∧ cnt .kI p = 1 ∧ cnt .kT p = 1) →
      metaList { seekHead := none, info := none, tracks := none } (p ++ d :: r) =
        .error (dupError (elKind d))) := by
  constructor
  · intro es hmem hS hI hT
    exact metaList_completes es { seekHead := none, info := none, tracks := none }
      hmem (by simpa using hS) (by simpa using hI) (by simpa using hT)
  · intro p r d hkind hmem hdup hS1 hI1 hT1 hnall
    obtain ⟨sl', heq, i1, i2, i3, hc5⟩ :=
      metaList_through p { seekHead := none, info := none, tracks := none } (d :: r)
        hmem
        (fun h => by simp at h)
        (fun h => by simp at h)
        (fun h => by simp at h)
        hS1 hI1 hT1
        (by
          rintro ⟨a, b, c⟩
          apply hnall
          refine ⟨?_, ?_, ?_⟩
          · rcases a with a | a
            · simp at a
            · exact a
          · rcases b with b | b
            · simp at b
            · exact b
          · rcases c with c | c
            · simp at c
            · exact c)
    rw [heq]
    rcases hkind with hk | hk | hk
    · cases d <;> simp [elKind] at hk
      rename_i s
      have hsome : sl'.seekHead.isSome = true :=
        i1.mpr (Or.inr (by simpa [elKind] using hdup))
      simp [metaList, hc5, dispatchMeta, hsome, dupError, elKind]
    · cases d <;> simp [elKind] at hk
      rename_i i
      have hsome : sl'.info.isSome = true :=
        i2.mpr (Or.inr (by simpa [elKind] using hdup))
      simp [metaList, hc5, dispatchMeta, hsome, dupError, elKind]
    · cases d <;> simp [elKind] at hk
      rename_i t
      have hsome : sl'.tracks.isSome = true :=
        i3.mpr (Or.inr (by simpa [elKind] using hdup))
      simp [metaList, hc5, dispatchMeta, hsome, dupError, elKind]

theorem c2_singleton_enforcement_witness :
    isCompleteOk (metaList { seekHead := none, info := none, tracks := none }
      [.seekHead 1, .void 0, .info 2, .tracks 3]) = true ∧
    metaList { seekHead := none, info := none, tracks := none }
      [.info 5, .info 6] = .error .infoElement := by
  constructor
  · exact c2_singleton_enforcement.1 [.seekHead 1, .void 0, .info 2, .tracks 3]
      (by intro e he; fin_cases he <;> decide) (by decide) (by decide) (by decide)
  · exact c2_singleton_enforcement.2 [.info 5] [] (.info 6)
      (by decide) (by intro e he; fin_cases he; decide) (by decide)
      (by decide) (by decide) (by decide) (by decide)

theorem dispatchMeta_no_renderCluster (sl : Slots) (el : SegmentElement) (c : Nat) :
    Event.renderCluster c ∉ (dispatchMeta sl el).1 := by
  cases el <;> simp [dispatchMeta]

theorem metaStep_stepEvents (G : Grammar) (st : ScanState) :
    stepEvents (metaStep G st) = [] ∨
    stepEvents (metaStep G st) = [.saturationNote] ∨
    ∃ el, stepEvents (metaStep G st) = (dispatchMeta st.slots el).1 := by
  unfold metaStep
  by_cases h1 : st.slots.complete = true
  · simp [h1, stepEvents]
  · by_cases h2 : (maybeShift st.buf).availableSpace = 0
    · simp [h1, h2, stepEvents]
    · by_cases h3 : (refilled st).buf.availableData = 0
      · simp [h1, h2, h3, stepEvents]
      · rw [if_neg h1, if_neg h2, if_neg h3]
        cases hG : G (refilled st).buf.data with
        | incomplete => simp [stepEvents]
        | err m => simp [stepEvents]
        | ok n el =>
          rcases hd : dispatchMeta st.slots el with ⟨evs2, res⟩
          cases res with
          | error e =>
            right; right
            refine ⟨el, ?_⟩
            simp [hd, stepEvents]
          | ok sl' =>
            right; right
            refine ⟨el, ?_⟩
            simp [hd, stepEvents]

theorem metaStep_no_renderCluster (G : Grammar) (st : ScanState) (c : Nat) :
    Event.renderCluster c ∉ stepEvents (metaStep G st) := by
  rcases metaStep_stepEvents G st with h | h | ⟨el, h⟩ <;> rw [h]
  · simp
  · simp
  · exact dispatchMeta_no_renderCluster st.slots el c

theorem metaRun_no_renderCluster (G : Grammar) (c : Nat) :
    ∀ (f : Nat) (st : ScanState), Event.renderCluster c ∉ (metaRun G f st).2 := by
  intro f
  induction f with
  | zero =>
    intro st
    simp [metaRun]
  | succ f ih =>
    intro st
    have hs := metaStep_no_renderCluster G st c
    simp only [metaRun]
    cases hm : metaStep G st with
    | next st' evs =>
      rw [hm] at hs
      simp only [stepEvents] at hs
      intro hmem
      rcases List.mem_append.mp (by simpa using hmem) with h | h
      · exact hs h
      · exact ih st' h
    | brk st' evs =>
      rw [hm] at hs
      simpa [stepEvents] using hs
    | fail e st' evs =>
      rw [hm] at hs
      simpa [stepEvents] using hs

theorem metaStep_brk_cases (G : Grammar) (st st' : ScanState) (evs : List Event)
    (h : metaStep G st = .brk st' evs) :
    (st' = st ∧ st.slots.complete = true) ∨
    (st'.buf.pos = 0 ∧ st'.buf.availableSpace = 0) := by
  unfold metaStep at h
  by_cases h1 : st.slots.complete = true
  · rw [if_pos h1] at h
    simp only [StepRes.brk.injEq] at h
    exact Or.inl ⟨h.1.symm, h1⟩
  · by_cases h2 : (maybeShift st.buf).availableSpace = 0
    · rw [if_neg h1, if_pos h2] at h
      simp only [StepRes.brk.injEq] at h
      refine Or.inr ?_
      rw [← h.1]
      exact ⟨rfl, (maybeShift_space_zero h2).2⟩
    · by_cases h3 : (refilled st).buf.availableData = 0
      · rw [if_neg h1, if_neg h2, if_pos h3] at h
        simp at h
      · rw [if_neg h1, if_neg h2, if_neg h3] at h
        cases hG : G (refilled st).buf.data with
        | incomplete =>
          rw [hG] at h
          simp at h
        | err m =>
          rw [hG] at h
          simp at h
        | ok n el =>
          rw [hG] at h
          rcases hd : dispatchMeta st.slots el with ⟨evs2, res⟩
          cases res with
          | error e => simp [hd] at h
          | ok sl' => simp [hd] at h

theorem metaRun_broke_cases (G : Grammar) :
    ∀ (f : Nat) (st st' : ScanState) (evs : List Event),
    metaRun G f st = (.broke st', evs) →
    st'.slots.complete = true ∨ (st'.buf.pos = 0 ∧ st'.buf.availableSpace = 0) := by
  intro f
  induction f with
  | zero =>
    intro st st' evs h
    simp [metaRun] at h
  | succ f ih =>
    intro st st' evs h
    simp only [metaRun] at h
    cases hm : metaStep G st with
    | next st2 evs2 =>
      rw [hm] at h
      rcases hr : metaRun G f st2 with ⟨r1, r2⟩
      simp only [hr, Prod.mk.injEq] at h
      exact ih st2 st' r2 (by rw [hr, h.1])
    | brk st2 evs2 =>
      rw [hm] at h
      simp only [Prod.mk.injEq, MetaOut.broke.injEq] at h
      rcases metaStep_brk_cases G st st2 evs2 hm with ⟨he, hc⟩ | hp
      · rw [← h.1, he]
        exact Or.inl hc
      · rw [← h.1]
        exact Or.inr hp
    | fail e st2 evs2 =>
      rw [hm] at h
      simp at h

theorem clusterStep_saturated (G : Grammar) {st : ScanState}
    (hpos : st.buf.pos = 0) (hsp : st.buf.availableSpace = 0) :
    clusterStep G st = .brk st [.saturationNote] := by
  have hshift : st.buf.shift = st.buf := Buffer.shift_of_pos_eq_zero hpos
  have hms : maybeShift st.buf = st.buf := by
    unfold maybeShift
    rw [if_pos hsp, hshift]
  unfold clusterStep
  rw [if_pos (by rw [hms]; exact hsp), hshift]

theorem clusterRun_saturated (G : Grammar) (f : Nat) {st : ScanState}
    (hpos : st.buf.pos = 0) (hsp : st.buf.availableSpace = 0) :
    clusterRun G (f + 1) st = (.done st, [.saturationNote]) := by
  simp [clusterRun, clusterStep_saturated G hpos hsp]

/-- Claim C5: a Cluster element is rendered only after the metadata loop has
broken out with all three slots resolved — in particular never while a slot
is still empty, since a metadata-phase saturation break hands the cluster
loop a state on which it breaks again before any dispatch — and during the
metadata phase a decoded Cluster or Unknown element terminates the scan with
an UnexpectedElement failure. -/
theorem c5_no_cluster_before_metadata (G : Grammar) :
    (∀ (f : Nat) (st : ScanState) (c : Nat),
      Event.renderCluster c ∈ (runScan G f st).2 →
      brokeComplete (metaRun G f st) = true) ∧
    (∀ st v n c, metaGrammarView st = some v → G v = .ok n (.cluster c) →
      metaStep G st =
        .fail (.unexpectedElement (elDebug (.cluster c))) (refilled st) []) ∧
    (∀ st v n id sz, metaGrammarView st = some v → G v = .ok n (.unknown id sz) →
      metaStep G st =
        .fail (.unexpectedElement (elDebug (.unknown id sz))) (refilled st) []) := by
  refine ⟨?_, ?_, ?_⟩
  · intro f st c hmem
    unfold runScan at hmem
    rcases hm : metaRun G f st with ⟨r1, evs⟩
    rw [hm] at hmem
    have hnot : Event.renderCluster c ∉ evs := by
      have := metaRun_no_renderCluster G c f st
      rw [hm] at this
      simpa using this
    cases r1 with
    | broke st' =>
      rcases hc : clusterRun G f st' with ⟨c1, evs'⟩
      simp only [hc] at hmem
      have hmem' : Event.renderCluster c ∈ evs' := by
        cases c1 <;>
          rcases List.mem_append.mp (by simpa using hmem) with h | h <;>
          first
            | exact absurd h hnot
            | exact h
      rcases metaRun_broke_cases G f st st' evs hm with hcomp | ⟨hpos, hsp⟩
      · simpa [brokeComplete] using hcomp
      · exfalso
        cases f with
        | zero =>
          simp [clusterRun] at hc
          rw [hc.2] at hmem'
          simp at hmem'
        | succ g =>
          rw [clusterRun_saturated G g hpos hsp] at hc
          simp only [Prod.mk.injEq] at hc
          rw [← hc.2] at hmem'
          simp at hmem'
    | failed e st' =>
      simp only at hmem
      exact absurd (by simpa using hmem) hnot
    | fuelOut st' =>
      simp only at hmem
      exact absurd (by simpa using hmem) hnot
  · intro st v n c hv hg
    rw [metaStep_decode_ok G hv hg]
    rfl
  · intro st v n id sz hv hg
    rw [metaStep_decode_ok G hv hg]
    rfl

theorem c5_no_cluster_before_metadata_witness :
    Event.renderCluster 7 ∈ (runScan clusterOkGrammar 3 c5state).2 ∧
    brokeComplete (metaRun clusterOkGrammar 3 c5state) = true ∧
    metaGrammarView c5mstate = some [9] ∧
    clusterOkGrammar [9] = .ok 1 (.cluster 7) ∧
    metaStep clusterOkGrammar c5mstate =
      .fail (.unexpectedElement (elDebug (.cluster 7))) (refilled c5mstate) [] := by
  have hmem : Event.renderCluster 7 ∈ (runScan clusterOkGrammar 3 c5state).2 := by
    decide
  have hv : metaGrammarView c5mstate = some [9] := by decide
  have hg : clusterOkGrammar [9] = .ok 1 (.cluster 7) := rfl
  exact ⟨hmem,
    (c5_no_cluster_before_metadata clusterOkGrammar).1 3 c5state 7 hmem,
    hv, hg,
    (c5_no_cluster_before_metadata clusterOkGrammar).2.1 c5mstate [9] 1 7 hv hg⟩

end MkvInfo
